import Mathlib

/-!
Shallow embedding of the Audio Normalization & Extraction Engine of
`src/frontend/src/services/audioService.ts` (class `AudioService`).
Byte buffers are `List ℕ` (one entry per byte), JavaScript numbers are `ℚ`,
and the `DataView` integer conversions are modelled by explicit truncation
toward zero followed by reduction modulo a power of two.
-/

/-- Truncation toward zero, the `ToIntegerOrInfinity` conversion that
`DataView.setInt16` / `DataView.setUint8` apply to a fractional value. -/
def jsTrunc (q : ℚ) : ℤ := if 0 ≤ q then ⌊q⌋ else ⌈q⌉

/-- Sample clamping `Math.max(-1, Math.min(1, sample))` (audioService.ts, line 404). -/
def clamp (s : ℚ) : ℚ := max (-1) (min 1 s)

/-- Scale factor `Math.pow(2, bitDepth - 1) - 1` (audioService.ts, line 399). -/
def maxValue (bitDepth : ℕ) : ℤ := 2 ^ (bitDepth - 1) - 1

/-- Scaled sample `Math.max(-1, Math.min(1, sample)) * maxValue` (line 404),
still a fractional value before the `DataView` write truncates it. -/
def intSampleQ (bitDepth : ℕ) (s : ℚ) : ℚ := clamp s * (maxValue bitDepth : ℚ)

/-- Signed 16-bit integer stored by `view.setInt16(offset, intSample, true)`
(line 407): the clamped, scaled sample truncated toward zero. -/
def encode16 (s : ℚ) : ℤ := jsTrunc (intSampleQ 16 s)

/-- Two's-complement reduction a `DataView` applies when storing a signed
16-bit value: the stored bit pattern as a natural number below 65536. -/
def toUint16 (v : ℤ) : ℕ := (v % 65536).toNat

/-- Little-endian byte pair written by `DataView.setUint16` / `setInt16`. -/
def le16 (u : ℕ) : List ℕ := [u % 256, u / 256 % 256]

/-- Little-endian byte quadruple written by `DataView.setUint32`. -/
def le32 (u : ℕ) : List ℕ := [u % 256, u / 256 % 256, u / 65536 % 256, u / 16777216 % 256]

/-- Decoded `AudioBuffer`: per-channel float sample arrays plus the metadata
the encoder reads (`buffer.length` is the frame count per channel). -/
structure AudioBuffer where
  channelData : List (List ℚ)
  sampleRate : ℕ
  length : ℕ
  deriving Repr, DecidableEq

/-- Channel count `buffer.numberOfChannels`. -/
def AudioBuffer.numberOfChannels (buf : AudioBuffer) : ℕ := buf.channelData.length

/-- Sample read `buffer.getChannelData(channel)[i]`. An out-of-range read is
`undefined` in JavaScript and ends up written as byte value 0 after the
16-bit NaN pipeline; 0 is used as the default here. -/
def sampleAt (buf : AudioBuffer) (channel i : ℕ) : ℚ :=
  (buf.channelData.getD channel []).getD i 0

/-- The 44-byte RIFF/WAVE header written by `audioBufferToWav`
(audioService.ts, lines 383-395). -/
def wavHeader (numberOfChannels sampleRate length bitDepth : ℕ) : List ℕ :=
  let bytesPerSample := bitDepth / 8
  let blockAlign := numberOfChannels * bytesPerSample
  let byteRate := sampleRate * blockAlign
  let dataSize := length * blockAlign
  let bufferSize := 44 + dataSize
  [82, 73, 70, 70] ++ le32 (bufferSize - 8) ++
  [87, 65, 86, 69] ++ [102, 109, 116, 32] ++
  le32 16 ++ le16 1 ++ le16 numberOfChannels ++ le32 sampleRate ++
  le32 byteRate ++ le16 blockAlign ++ le16 bitDepth ++
  [100, 97, 116, 97] ++ le32 dataSize

/-- Bytes written for one sample by the conversion loop (lines 403-412):
two little-endian bytes at depth 16, one offset unsigned byte at depth 8;
any other depth writes nothing (no branch taken, offset not advanced). -/
def writeSampleBytes (bitDepth : ℕ) (s : ℚ) : List ℕ :=
  if bitDepth = 16 then le16 (toUint16 (jsTrunc (intSampleQ 16 s)))
  else if bitDepth = 8 then [(jsTrunc (intSampleQ 8 s + 128) % 256).toNat]
  else []

/-- Data section produced by the interleaved loop of lines 401-414:
for each frame `i`, for each channel, the bytes of that sample. -/
def dataBytes (buf : AudioBuffer) (bitDepth : ℕ) : List ℕ :=
  (List.range buf.length).flatMap (fun i =>
    (List.range buf.numberOfChannels).flatMap (fun c =>
      writeSampleBytes bitDepth (sampleAt buf c i)))

/-- The Binary Container Encoder `audioBufferToWav(buffer, bitDepth)`
(audioService.ts, lines 363-417): 44-byte header followed by PCM data. -/
def audioBufferToWav (buf : AudioBuffer) (bitDepth : ℕ) : List ℕ :=
  wavHeader buf.numberOfChannels buf.sampleRate buf.length bitDepth ++
  dataBytes buf bitDepth

/-- Single-channel `AudioBuffer` holding the sample array `s`. -/
def monoBuffer (s : List ℚ) : AudioBuffer :=
  { channelData := [s], sampleRate := 16000, length := s.length }

/-- Little-endian signed 16-bit decoding of a byte pair. -/
def decodeInt16 (b0 b1 : ℕ) : ℤ :=
  let n := b0 % 256 + 256 * (b1 % 256)
  if n < 32768 then (n : ℤ) else (n : ℤ) - 65536

/-- Decode a byte list as consecutive little-endian signed 16-bit integers. -/
def decodeInt16Pairs : List ℕ → List ℤ
  | b0 :: b1 :: rest => decodeInt16 b0 b1 :: decodeInt16Pairs rest
  | _ => []

/-- Value of a sample after 16-bit quantization: the encoder's stored
integer divided by the scale factor. -/
def quant16 (x : ℚ) : ℚ := (encode16 x : ℚ) / 32767

example : encode16 1 = 32767 := by
  norm_num [encode16, intSampleQ, maxValue, jsTrunc, clamp]
example : encode16 (-1) = -32767 := by
  norm_num [encode16, intSampleQ, maxValue, jsTrunc, clamp]
  rw [show ((-32767 : ℚ)) = ((-32767 : ℤ) : ℚ) by norm_num, Int.ceil_intCast]
example : encode16 (1/2) = 16383 := by
  norm_num [encode16, intSampleQ, maxValue, jsTrunc, clamp]
example : toUint16 (-32767) = 32769 := by decide
example : le16 (toUint16 (-32767)) = [1, 128] := by decide
example : decodeInt16 1 128 = -32767 := by decide
example : wavHeader 1 16000 1 16 =
    [82, 73, 70, 70, 38, 0, 0, 0, 87, 65, 86, 69, 102, 109, 116, 32,
     16, 0, 0, 0, 1, 0, 1, 0, 128, 62, 0, 0, 0, 125, 0, 0, 2, 0, 16, 0,
     100, 97, 116, 97, 2, 0, 0, 0] := by decide

/-- ASCII lowercasing of one character, the effect of the `/i` regex flag. -/
def lowerChar (c : Char) : Char :=
  if 65 ≤ c.toNat ∧ c.toNat ≤ 90 then Char.ofNat (c.toNat + 32) else c

/-- Case-folded character sequence of a filename. -/
def lowerString (s : String) : List Char := s.data.map lowerChar

/-- Suffix test on character sequences (the `$`-anchored regex match). -/
def endsWithChars (name suffix : List Char) : Bool :=
  name.drop (name.length - suffix.length) == suffix

/-- Case-insensitive test that a filename ends in a dot followed by one of
the listed extensions: the effect of `/\.(e1|e2|...)$/i.test(name)`. -/
def matchesExtension (exts : List String) (name : String) : Bool :=
  exts.any (fun e => endsWithChars (lowerString name) ('.' :: e.data))

/-- MIME allowlist `videoTypes` (audioService.ts, lines 451-462). -/
def videoTypes : List String :=
  ["video/mp4", "video/avi", "video/mov", "video/mkv", "video/webm",
   "video/quicktime", "video/x-msvideo", "video/3gpp", "video/x-ms-wmv",
   "video/x-flv"]

/-- Extension alternatives of the regex `videoExtensions` (line 464). -/
def videoExtensions : List String :=
  ["mp4", "avi", "mov", "mkv", "webm", "qt", "3gp", "wmv", "flv", "m4v"]

/-- Classifier `isVideoFile(file)` (lines 450-467), over the file's name and
declared MIME type. -/
def isVideoFile (name declaredType : String) : Bool :=
  videoTypes.contains declaredType || matchesExtension videoExtensions name

/-- MIME allowlist `audioTypes` (lines 470-481). -/
def audioTypes : List String :=
  ["audio/mp3", "audio/wav", "audio/m4a", "audio/ogg", "audio/flac",
   "audio/mpeg", "audio/webm", "audio/aac", "audio/x-wav", "audio/vnd.wav"]

/-- Extension alternatives of the regex `audioExtensions` (line 483). -/
def audioExtensions : List String :=
  ["mp3", "wav", "m4a", "ogg", "flac", "aac", "wma", "opus"]

/-- Classifier `isAudioFile(file)` (lines 469-486). -/
def isAudioFile (name declaredType : String) : Bool :=
  audioTypes.contains declaredType || matchesExtension audioExtensions name

/-- A file accepted by either classifier (anything else takes the
unsupported-input path). -/
def acceptedByClassifier (name declaredType : String) : Bool :=
  isAudioFile name declaredType || isVideoFile name declaredType

/-- Modelled from the spec: the audio half of the fixed MIME/extension table
of spec section 6 ("audio: wav, mp3, m4a, ogg, flac, aac"), as extensions. -/
def specAudioExtensions : List String :=
  ["wav", "mp3", "m4a", "ogg", "flac", "aac"]

/-- Modelled from the spec: the video half of the fixed MIME/extension table
of spec section 6 ("video: mp4, avi, mov, mkv, webm, 3gp, wmv, flv, m4v"). -/
def specVideoExtensions : List String :=
  ["mp4", "avi", "mov", "mkv", "webm", "3gp", "wmv", "flv", "m4v"]

/-- Modelled from the spec: acceptance by the fixed table of spec section 6,
matching the declared type's subtype or the filename extension against the
audio and video token lists. -/
def specTableAccepts (name declaredType : String) : Bool :=
  (specAudioExtensions.map (fun e => "audio/" ++ e)).contains declaredType ||
  (specVideoExtensions.map (fun e => "video/" ++ e)).contains declaredType ||
  matchesExtension specAudioExtensions name ||
  matchesExtension specVideoExtensions name

example : isVideoFile "clip.MKV" "video/x-matroska" = true := by decide
example : isAudioFile "a.opus" "" = true := by decide
example : specTableAccepts "a.opus" "" = false := by decide

/-- Target frame count of the offline render,
`Math.ceil(duration * targetSampleRate)` with `targetSampleRate = 16000`
(audioService.ts, lines 316-319). -/
def targetLength (duration : ℚ) : ℕ := (⌈duration * 16000⌉).toNat

/-- Outcomes of the two fallible suspension points inside
`convertTo16kHzMono`: `decoded` is the decoded buffer's duration when
`decodeAudioData` succeeds, and `rendered` gives the offline renderer's mono
output samples by index when `startRendering` succeeds. -/
structure NormEnv where
  decoded : Option ℚ
  rendered : Option (ℕ → ℚ)

/-- Buffer produced by `offlineContext.startRendering()`: the platform
guarantees exactly the constructor's channel count (1) and frame count
(`targetLength duration`), with samples supplied by the environment. -/
def renderedBuffer (duration : ℚ) (f : ℕ → ℚ) : AudioBuffer :=
  { channelData := [(List.range (targetLength duration)).map f]
    sampleRate := 16000
    length := targetLength duration }

/-- PCM Normalizer `convertTo16kHzMono(blob)` (audioService.ts, lines
304-361), success and internal-failure paths of the `onload` handler: a
decode or render failure is caught and the original input blob is the
resolved value (lines 346-351); on success the rendered buffer is encoded
at depth 16 (line 342). -/
def convertTo16kHzMono (input : List ℕ) (env : NormEnv) : List ℕ :=
  match env.decoded with
  | none => input
  | some duration =>
    match env.rendered with
    | none => input
    | some f => audioBufferToWav (renderedBuffer duration f) 16

/-- Full promise outcome of `convertTo16kHzMono`, including the one path
that rejects: `fileReader.onerror` (lines 354-357). `read = none` models a
file-read failure, in which case the promise rejects. -/
def convertTo16kHzMonoE (input : List ℕ) (read : Option NormEnv) :
    Except String (List ℕ) :=
  match read with
  | none => Except.error "Failed to read audio file"
  | some env => Except.ok (convertTo16kHzMono input env)

/-- Mutable audio-service state: fields `mediaRecorder`, `stream`, `chunks`
(audioService.ts, lines 2-4). Sessions are represented by a numeric handle. -/
structure AudioServiceState where
  mediaRecorder : Option ℕ
  stream : Option ℕ
  chunks : List (List ℕ)
  deriving Repr, DecidableEq

/-- Device Capture Recorder `startRecording()` (audioService.ts, lines
6-44). `acquired` is the outcome of `getUserMedia`: a fresh session handle,
or `none` when device acquisition is denied. The method performs no check
of the current state: on success it overwrites `stream`, `mediaRecorder`
and `chunks` unconditionally. -/
def startRecording (_st : AudioServiceState) (acquired : Option ℕ) :
    Except String AudioServiceState :=
  match acquired with
  | none =>
    Except.error "Failed to start recording. Please check microphone permissions."
  | some dev =>
    Except.ok { mediaRecorder := some dev, stream := some dev, chunks := [] }

/-- Device Capture Recorder `stopRecording()` (audioService.ts, lines
46-70): rejects when no recorder exists; otherwise assembles the chunks
into one blob and resolves with the converted blob, falling back to the
raw blob when `convertTo16kHzMono` rejects (lines 59-65). -/
def stopRecording (st : AudioServiceState) (read : Option NormEnv) :
    Except String (List ℕ) :=
  match st.mediaRecorder with
  | none => Except.error "No recording in progress"
  | some _ =>
    match convertTo16kHzMonoE st.chunks.flatten read with
    | Except.ok converted => Except.ok converted
    | Except.error _ => Except.ok st.chunks.flatten

/-- Chunk push of the extractor's `ondataavailable` handler (audioService.ts,
lines 188-192): only chunks with a positive byte size are accumulated. -/
def pushChunk (chunks : List (List ℕ)) (eventData : List ℕ) : List (List ℕ) :=
  if eventData.length > 0 then chunks ++ [eventData] else chunks

/-- Chunks accumulated over a sequence of `ondataavailable` events. -/
def accumulateChunks (events : List (List ℕ)) : List (List ℕ) :=
  events.foldl pushChunk []

/-- Empty-capture guard of the extractor's `onstop` handler (audioService.ts,
lines 194-206): zero chunks or a zero-byte assembled blob fail the
extraction; otherwise the raw assembled blob moves on to normalization. -/
def onStopResult (chunks : List (List ℕ)) : Except String (List ℕ) :=
  if chunks.length = 0 then
    Except.error "No audio data was captured from the video"
  else
    if chunks.flatten.length = 0 then
      Except.error "Extracted audio file is empty"
    else Except.ok chunks.flatten

/-- Recorder phase as read from `mediaRecorder.state` by the extractor's
termination handlers. -/
inductive RecorderPhase where
  | recording
  | inactive
  deriving Repr, DecidableEq

/-- State touched by the extractor's two termination handlers: the capture
recorder, whether the video has been paused, and the instant at which
`mediaRecorder.stop()` was called, if it has been. -/
structure ExtractState where
  recorder : RecorderPhase
  videoPaused : Bool
  stoppedAt : Option ℚ
  deriving Repr, DecidableEq

/-- The two events that can terminate capture. -/
inductive ExtractEvent where
  | ended
  | deadline
  deriving Repr, DecidableEq

/-- Effect of one termination event at instant `t` (audioService.ts, lines
245-261): `video.onended` stops the recorder if it is still recording;
the fallback timeout pauses the video and stops the recorder if it is
still recording. A recorder that is already inactive is left untouched. -/
def stepEvent (t : ℚ) (st : ExtractState) (e : ExtractEvent) : ExtractState :=
  match e with
  | ExtractEvent.ended =>
    if st.recorder = RecorderPhase.recording then
      { st with recorder := RecorderPhase.inactive, stoppedAt := some t }
    else st
  | ExtractEvent.deadline =>
    if st.recorder = RecorderPhase.recording then
      { recorder := RecorderPhase.inactive, videoPaused := true,
        stoppedAt := some t }
    else st

/-- Event timeline of one extraction: the deadline timer always fires at
`duration + 2` (line 261); the video's `ended` event fires at `endedAt`
when that is `some`, and the single-threaded event loop delivers the two
in time order. -/
def timeline (duration : ℚ) (endedAt : Option ℚ) : List (ℚ × ExtractEvent) :=
  match endedAt with
  | none => [(duration + 2, ExtractEvent.deadline)]
  | some t =>
    if t ≤ duration + 2 then
      [(t, ExtractEvent.ended), (duration + 2, ExtractEvent.deadline)]
    else
      [(duration + 2, ExtractEvent.deadline), (t, ExtractEvent.ended)]

/-- Run the termination handlers of one extraction from the state in which
capture has just started. -/
def runExtraction (duration : ℚ) (endedAt : Option ℚ) : ExtractState :=
  (timeline duration endedAt).foldl
    (fun st te => stepEvent te.1 st te.2)
    { recorder := RecorderPhase.recording, videoPaused := false,
      stoppedAt := none }

/-- Instant at which the spec predicts capture stops: the earlier of the
natural end and the deadline. -/
def stopInstant (duration : ℚ) (endedAt : Option ℚ) : ℚ :=
  match endedAt with
  | none => duration + 2
  | some t => min t (duration + 2)

example : onStopResult [] = Except.error "No audio data was captured from the video" := rfl
example : accumulateChunks [[], [7], []] = [[7]] := by decide
example : stopRecording { mediaRecorder := none, stream := none, chunks := [] } none =
    Except.error "No recording in progress" := rfl

/-! ### Helper lemmas -/

theorem maxValue_sixteen : maxValue 16 = 32767 := by norm_num [maxValue]

theorem maxValue_eight : maxValue 8 = 127 := by norm_num [maxValue]

theorem clamp_le_one (s : ℚ) : clamp s ≤ 1 := by
  rw [clamp]
  exact max_le (by norm_num) (min_le_left 1 s)

theorem neg_one_le_clamp (s : ℚ) : -1 ≤ clamp s := le_max_left (-1) (min 1 s)

theorem jsTrunc_le (q : ℚ) (hi : ℤ) (h : q ≤ (hi : ℚ)) :
    jsTrunc q ≤ hi := by
  rw [jsTrunc]
  split
  · calc ⌊q⌋ ≤ ⌊((hi : ℤ) : ℚ)⌋ := Int.floor_le_floor h
      _ = hi := Int.floor_intCast hi
  · calc ⌈q⌉ ≤ ⌈((hi : ℤ) : ℚ)⌉ := Int.ceil_le_ceil h
      _ = hi := Int.ceil_intCast hi

theorem le_jsTrunc (q : ℚ) (lo : ℤ) (h : (lo : ℚ) ≤ q) (h0 : lo ≤ 0) :
    lo ≤ jsTrunc q := by
  rw [jsTrunc]
  split
  · have hq : 0 ≤ ⌊q⌋ := Int.floor_nonneg.mpr (by assumption)
    omega
  · calc lo = ⌈((lo : ℤ) : ℚ)⌉ := (Int.ceil_intCast lo).symm
      _ ≤ ⌈q⌉ := Int.ceil_le_ceil h

theorem jsTrunc_sub_lt (q : ℚ) : |(jsTrunc q : ℚ) - q| < 1 := by
  rcases le_or_lt 0 q with h | h
  · rw [jsTrunc, if_pos h, abs_lt]
    have h1 : (⌊q⌋ : ℚ) ≤ q := Int.floor_le q
    have h2 : q < ⌊q⌋ + 1 := Int.lt_floor_add_one q
    constructor <;> linarith
  · rw [jsTrunc, if_neg (not_le.mpr h), abs_lt]
    have h1 : q ≤ (⌈q⌉ : ℚ) := Int.le_ceil q
    have h2 : (⌈q⌉ : ℚ) < q + 1 := Int.ceil_lt_add_one q
    constructor <;> linarith

theorem encode16_le (s : ℚ) : encode16 s ≤ 32767 := by
  have h1 := clamp_le_one s
  apply jsTrunc_le
  rw [intSampleQ, maxValue_sixteen]
  push_cast
  linarith

theorem neg_le_encode16 (s : ℚ) : -32767 ≤ encode16 s := by
  have h2 := neg_one_le_clamp s
  apply le_jsTrunc _ _ _ (by norm_num)
  rw [intSampleQ, maxValue_sixteen]
  push_cast
  linarith

theorem decodeInt16_le16 (v : ℤ) (h1 : -32768 ≤ v) (h2 : v ≤ 32767) :
    decodeInt16 (toUint16 v % 256) (toUint16 v / 256 % 256) = v := by
  simp only [decodeInt16, toUint16]
  split <;> omega

theorem decodeInt16Pairs_flatMap (l : List ℤ)
    (h : ∀ v ∈ l, -32768 ≤ v ∧ v ≤ 32767) :
    decodeInt16Pairs (l.flatMap fun v => le16 (toUint16 v)) = l := by
  induction l with
  | nil => rfl
  | cons v l ih =>
    have hv := h v (List.mem_cons_self v l)
    rw [List.flatMap_cons]
    calc decodeInt16Pairs
          (le16 (toUint16 v) ++ l.flatMap fun w => le16 (toUint16 w))
        = decodeInt16 (toUint16 v % 256) (toUint16 v / 256 % 256) ::
            decodeInt16Pairs (l.flatMap fun w => le16 (toUint16 w)) := rfl
      _ = v :: l := by
          rw [decodeInt16_le16 v hv.1 hv.2,
            ih fun w hw => h w (List.mem_cons_of_mem v hw)]

theorem range_flatMap_getD (l : List ℚ) (g : ℚ → List ℕ) :
    (List.range l.length).flatMap (fun i => g (l.getD i 0)) = l.flatMap g := by
  induction l with
  | nil => simp
  | cons a l ih =>
    rw [List.length_cons, List.range_succ_eq_map]
    simp only [List.flatMap_cons, List.getD_cons_zero, List.flatMap_map,
      List.getD_cons_succ]
    rw [ih]

theorem writeSampleBytes_sixteen (x : ℚ) :
    writeSampleBytes 16 x = le16 (toUint16 (encode16 x)) := by
  simp [writeSampleBytes, encode16]

theorem length_writeSampleBytes_sixteen (x : ℚ) :
    (writeSampleBytes 16 x).length = 2 := by
  simp [writeSampleBytes_sixteen, le16]

theorem wavHeader_length (a b c d : ℕ) : (wavHeader a b c d).length = 44 := by
  simp [wavHeader, le16, le32]

theorem audioBufferToWav_drop_header (buf : AudioBuffer) (d : ℕ) :
    (audioBufferToWav buf d).drop 44 = dataBytes buf d := by
  rw [audioBufferToWav,
    ← wavHeader_length buf.numberOfChannels buf.sampleRate buf.length d,
    List.drop_left]

theorem dataBytes_mono (s : List ℚ) :
    dataBytes (monoBuffer s) 16 = s.flatMap fun x => le16 (toUint16 (encode16 x)) := by
  have hch : (monoBuffer s).numberOfChannels = 1 := rfl
  have hlen : (monoBuffer s).length = s.length := rfl
  rw [dataBytes, hch, hlen]
  have hr1 : List.range 1 = [0] := rfl
  simp only [hr1, List.flatMap_singleton]
  have hsamp : ∀ i, sampleAt (monoBuffer s) 0 i = s.getD i 0 := by
    intro i
    simp [sampleAt, monoBuffer]
  simp only [hsamp, writeSampleBytes_sixteen]
  exact range_flatMap_getD s fun x => le16 (toUint16 (encode16 x))

theorem len_flatMap_const (n : ℕ) (g : ℕ → List ℕ) (h : ∀ i, (g i).length = 2) :
    ((List.range n).flatMap g).length = 2 * n := by
  rw [List.length_flatMap]
  simp only [Function.comp_def, h, List.map_const', List.sum_replicate,
    List.length_range, smul_eq_mul]
  omega

theorem audioBufferToWav_length_mono (buf : AudioBuffer)
    (h : buf.numberOfChannels = 1) :
    (audioBufferToWav buf 16).length = 44 + 2 * buf.length := by
  rw [audioBufferToWav, List.length_append, wavHeader_length]
  congr 1
  rw [dataBytes, h]
  apply len_flatMap_const
  intro i
  have hr1 : List.range 1 = [0] := rfl
  rw [hr1, List.flatMap_singleton, length_writeSampleBytes_sixteen]

theorem ceil_round_close (x : ℚ) : (⌈x⌉ - round x).natAbs ≤ 1 := by
  rw [round_eq]
  have h1 : (⌈x⌉ : ℚ) < x + 1 := Int.ceil_lt_add_one x
  have h2 : x ≤ (⌈x⌉ : ℚ) := Int.le_ceil x
  have h3 : (⌊x + 1/2⌋ : ℚ) ≤ x + 1/2 := Int.floor_le _
  have h4 : x + 1/2 < (⌊x + 1/2⌋ : ℚ) + 1 := Int.lt_floor_add_one _
  have hub : ⌈x⌉ - ⌊x + 1/2⌋ < 2 := by
    have hc : ((⌈x⌉ - ⌊x + 1/2⌋ : ℤ) : ℚ) < 2 := by push_cast; linarith
    exact_mod_cast hc
  have hlb : (-1 : ℤ) < ⌈x⌉ - ⌊x + 1/2⌋ := by
    have hc : (-1 : ℚ) < ((⌈x⌉ - ⌊x + 1/2⌋ : ℤ) : ℚ) := by push_cast; linarith
    exact_mod_cast hc
  omega

/-- Integers the 16-bit conversion loop stores, frame-major then
channel-major, matching the data-section byte order. -/
def encodedInts (buf : AudioBuffer) : List ℤ :=
  (List.range buf.length).flatMap fun i =>
    (List.range buf.numberOfChannels).map fun c => encode16 (sampleAt buf c i)

theorem dataBytes_eq_flatMap (buf : AudioBuffer) :
    dataBytes buf 16 = (encodedInts buf).flatMap fun v => le16 (toUint16 v) := by
  rw [dataBytes, encodedInts]
  simp only [List.flatMap_assoc, List.flatMap_map, writeSampleBytes_sixteen]

theorem mem_encodedInts_bounds (buf : AudioBuffer) (v : ℤ)
    (hv : v ∈ encodedInts buf) : -32767 ≤ v ∧ v ≤ 32767 := by
  rw [encodedInts] at hv
  rcases List.mem_flatMap.mp hv with ⟨i, _, hvi⟩
  rcases List.mem_map.mp hvi with ⟨c, _, rfl⟩
  exact ⟨neg_le_encode16 _, encode16_le _⟩

theorem intSampleQ_sixteen (s : ℚ) : intSampleQ 16 s = clamp s * 32767 := by
  rw [intSampleQ, maxValue_sixteen]
  norm_num

theorem intSampleQ_eight (s : ℚ) : intSampleQ 8 s = clamp s * 127 := by
  rw [intSampleQ, maxValue_eight]
  norm_num

/-- C1: for every sample array `s` and bit depth 16, decoding the data
section of the Encoder's output as little-endian signed 16-bit integers and
dividing by the scale factor 32767 yields exactly the 16-bit quantization of
each clamped sample of `s`, and each quantized value differs from the
clamped sample by less than one quantization step `1 / 32767`. -/
theorem audioBufferToWav_roundTrip (s : List ℚ) (x : ℚ) (hx : x ∈ s) :
    (decodeInt16Pairs ((audioBufferToWav (monoBuffer s) 16).drop 44)).map
        (fun v : ℤ => (v : ℚ) / 32767) = s.map quant16 ∧
    |quant16 x - clamp x| < 1 / 32767 := by
  constructor
  · rw [audioBufferToWav_drop_header, dataBytes_mono]
    have hflat : (s.flatMap fun y => le16 (toUint16 (encode16 y))) =
        (s.map encode16).flatMap fun v => le16 (toUint16 v) := by
      rw [List.flatMap_map]
    rw [hflat, decodeInt16Pairs_flatMap]
    · rw [List.map_map]
      rfl
    · intro v hv
      rcases List.mem_map.mp hv with ⟨y, _, rfl⟩
      have hb1 := neg_le_encode16 y
      have hb2 := encode16_le y
      omega
  · have h1 := jsTrunc_sub_lt (intSampleQ 16 x)
    have key : quant16 x - clamp x =
        ((encode16 x : ℚ) - intSampleQ 16 x) / 32767 := by
      rw [quant16, intSampleQ_sixteen]
      ring
    rw [key, abs_div, abs_of_pos (by norm_num : (0 : ℚ) < 32767)]
    exact (div_lt_div_iff_of_pos_right (by norm_num)).mpr h1

/-- Witness for `audioBufferToWav_roundTrip`: the sample `1/2` in the
one-element array `[1/2]`. -/
theorem audioBufferToWav_roundTrip_witness :
    (1 / 2 : ℚ) ∈ [(1 / 2 : ℚ)] ∧
    |quant16 (1 / 2) - clamp (1 / 2)| < 1 / 32767 :=
  ⟨List.mem_singleton.mpr rfl,
    (audioBufferToWav_roundTrip [1 / 2] (1 / 2) (List.mem_singleton.mpr rfl)).2⟩

/-- C2 counterexample: at sample `-1` and depth 16 the encoder stores
`-32767` — the same scale factor 32767 is used on the negative side — while
scaling negative samples by 32768 as claimed would store `-32768`. -/
theorem encode16_negative_scale_counterexample :
    encode16 (-1) = -32767 ∧ jsTrunc (clamp (-1) * 32768) = -32768 ∧
    encode16 (-1) ≠ jsTrunc (clamp (-1) * 32768) := by
  have h1 : encode16 (-1) = -32767 := by
    norm_num [encode16, intSampleQ, maxValue, jsTrunc, clamp]
    rw [show ((-32767 : ℚ)) = ((-32767 : ℤ) : ℚ) by norm_num, Int.ceil_intCast]
  have h2 : jsTrunc (clamp (-1) * 32768) = -32768 := by
    norm_num [jsTrunc, clamp]
    rw [show ((-32768 : ℚ)) = ((-32768 : ℤ) : ℚ) by norm_num, Int.ceil_intCast]
  refine ⟨h1, h2, ?_⟩
  rw [h1, h2]
  decide

/-- C2 amended: for 16-bit output each sample is clamped to [-1, 1], scaled
by 32767 for positive and negative samples alike, truncated toward zero and
written as two little-endian bytes that decode back to exactly that integer;
for 8-bit output the sample is scaled by 127, offset by +128, truncated, and
written as a single unsigned byte, which always lies in [1, 255]. -/
theorem writeSampleBytes_contract (s : ℚ) :
    decodeInt16Pairs (writeSampleBytes 16 s) = [jsTrunc (clamp s * 32767)] ∧
    writeSampleBytes 8 s = [(jsTrunc (clamp s * 127 + 128)).toNat] ∧
    1 ≤ jsTrunc (clamp s * 127 + 128) ∧
    jsTrunc (clamp s * 127 + 128) ≤ 255 := by
  have hlow := neg_one_le_clamp s
  have hhigh := clamp_le_one s
  have hq1 : (1 : ℚ) ≤ clamp s * 127 + 128 := by linarith
  have hq255 : clamp s * 127 + 128 ≤ 255 := by linarith
  have hz1 : 1 ≤ jsTrunc (clamp s * 127 + 128) := by
    rw [jsTrunc, if_pos (by linarith : (0 : ℚ) ≤ clamp s * 127 + 128)]
    exact Int.le_floor.mpr (by exact_mod_cast hq1)
  have hz255 : jsTrunc (clamp s * 127 + 128) ≤ 255 := jsTrunc_le _ 255 (by exact_mod_cast hq255)
  refine ⟨?_, ?_, hz1, hz255⟩
  · rw [writeSampleBytes_sixteen]
    have hb1 := neg_le_encode16 s
    have hb2 := encode16_le s
    calc decodeInt16Pairs (le16 (toUint16 (encode16 s)))
        = [decodeInt16 (toUint16 (encode16 s) % 256)
            (toUint16 (encode16 s) / 256 % 256)] := rfl
      _ = [encode16 s] := by rw [decodeInt16_le16 _ (by omega) (by omega)]
      _ = [jsTrunc (clamp s * 32767)] := by rw [encode16, intSampleQ_sixteen]
  · have hmod : jsTrunc (clamp s * 127 + 128) % 256 = jsTrunc (clamp s * 127 + 128) :=
      Int.emod_eq_of_lt (by omega) (by omega)
    rw [writeSampleBytes]
    norm_num [intSampleQ_eight, hmod]

/-- C10: every 16-bit integer the Encoder writes into the data section of
its output lies in [-32767, 32767] — the value -32768 is never produced —
because both positive and negative clamped samples are scaled by the same
factor `maxValue 16 = 32767`. -/
theorem audioBufferToWav_data_range (buf : AudioBuffer) (v : ℤ)
    (hv : v ∈ decodeInt16Pairs ((audioBufferToWav buf 16).drop 44)) :
    -32767 ≤ v ∧ v ≤ 32767 ∧ v ≠ -32768 ∧ maxValue 16 = 32767 := by
  rw [audioBufferToWav_drop_header, dataBytes_eq_flatMap,
    decodeInt16Pairs_flatMap] at hv
  · have hb := mem_encodedInts_bounds buf v hv
    refine ⟨hb.1, hb.2, by omega, maxValue_sixteen⟩
  · intro w hw
    have hb := mem_encodedInts_bounds buf w hw
    omega

/-- Witness for `audioBufferToWav_data_range`: the integer decoded from the
data section of the encoding of the one-sample array `[1]`. -/
theorem audioBufferToWav_data_range_witness :
    (32767 : ℤ) ∈ decodeInt16Pairs ((audioBufferToWav (monoBuffer [1]) 16).drop 44) ∧
    (-32767 ≤ (32767 : ℤ) ∧ (32767 : ℤ) ≤ 32767 ∧ (32767 : ℤ) ≠ -32768 ∧
      maxValue 16 = 32767) := by
  have h1 : encode16 1 = 32767 := by
    norm_num [encode16, intSampleQ, maxValue, jsTrunc, clamp]
  have hmem : (32767 : ℤ) ∈
      decodeInt16Pairs ((audioBufferToWav (monoBuffer [1]) 16).drop 44) := by
    rw [audioBufferToWav_drop_header, dataBytes_mono, List.flatMap_singleton, h1]
    decide
  exact ⟨hmem, audioBufferToWav_data_range (monoBuffer [1]) 32767 hmem⟩

/-- C3: for every successfully normalized input of duration `d > 0`, the
Normalizer allocates exactly `ceil(d * 16000)` mono output samples, that
count is within ±1 of `round(d * 16000)`, and the resulting WAV byte buffer
has total length `44 + 2 * (sample count)`. -/
theorem convertTo16kHzMono_output_size (d : ℚ) (hd : 0 < d)
    (input : List ℕ) (f : ℕ → ℚ) :
    (renderedBuffer d f).length = targetLength d ∧
    (renderedBuffer d f).numberOfChannels = 1 ∧
    (targetLength d : ℤ) = ⌈d * 16000⌉ ∧
    ((targetLength d : ℤ) - round (d * 16000)).natAbs ≤ 1 ∧
    (convertTo16kHzMono input { decoded := some d, rendered := some f }).length
      = 44 + 2 * targetLength d := by
  have hpos : 0 < ⌈d * 16000⌉ := Int.ceil_pos.mpr (by positivity)
  have hcast : (targetLength d : ℤ) = ⌈d * 16000⌉ := by
    rw [targetLength]
    exact Int.toNat_of_nonneg (le_of_lt hpos)
  refine ⟨rfl, rfl, hcast, ?_, ?_⟩
  · rw [hcast]
    exact ceil_round_close (d * 16000)
  · show (audioBufferToWav (renderedBuffer d f) 16).length = _
    rw [audioBufferToWav_length_mono (renderedBuffer d f) rfl]
    rfl

/-- All-zero rendered output, used to instantiate render outcomes. -/
def zeroSamples : ℕ → ℚ := fun _ => 0

/-- Witness for `convertTo16kHzMono_output_size` at duration 1 s. -/
theorem convertTo16kHzMono_output_size_witness :
    (0 : ℚ) < 1 ∧
    ((renderedBuffer 1 zeroSamples).length = targetLength 1 ∧
     (renderedBuffer 1 zeroSamples).numberOfChannels = 1 ∧
     (targetLength 1 : ℤ) = ⌈(1 : ℚ) * 16000⌉ ∧
     ((targetLength 1 : ℤ) - round ((1 : ℚ) * 16000)).natAbs ≤ 1 ∧
     (convertTo16kHzMono [] { decoded := some 1, rendered := some zeroSamples }).length
       = 44 + 2 * targetLength 1) :=
  ⟨by norm_num, convertTo16kHzMono_output_size 1 (by norm_num) [] zeroSamples⟩

/-- C4: when decoding or offline rendering fails inside the Normalizer, the
call resolves with the original input buffer unchanged rather than throwing;
likewise `stopRecording` resolves with the raw recorded buffer instead of
failing, both when normalization silently no-ops and when the conversion
promise rejects outright. -/
theorem normalizer_degrade_not_fail (input : List ℕ) (env : NormEnv)
    (h : env.decoded = none ∨ env.rendered = none)
    (st : AudioServiceState) (dev : ℕ) (hrec : st.mediaRecorder = some dev) :
    convertTo16kHzMono input env = input ∧
    stopRecording st (some env) = Except.ok st.chunks.flatten ∧
    stopRecording st none = Except.ok st.chunks.flatten := by
  have hconv : ∀ inp : List ℕ, convertTo16kHzMono inp env = inp := by
    intro inp
    rcases h with h1 | h1
    · simp [convertTo16kHzMono, h1]
    · rcases hdec : env.decoded with _ | dur
      · simp [convertTo16kHzMono, hdec]
      · simp [convertTo16kHzMono, hdec, h1]
  refine ⟨hconv input, ?_, ?_⟩
  · simp [stopRecording, hrec, convertTo16kHzMonoE, hconv]
  · simp [stopRecording, hrec, convertTo16kHzMonoE]

/-- Environment in which both decode and render fail. -/
def failEnv : NormEnv := { decoded := none, rendered := none }

/-- Service state with an active recording session (handle 0) and one
recorded chunk. -/
def activeState : AudioServiceState :=
  { mediaRecorder := some 0, stream := some 0, chunks := [[1, 2]] }

/-- Witness for `normalizer_degrade_not_fail` with a failing environment
and an active session. -/
theorem normalizer_degrade_not_fail_witness :
    (failEnv.decoded = none ∨ failEnv.rendered = none) ∧
    activeState.mediaRecorder = some 0 ∧
    (convertTo16kHzMono [9] failEnv = [9] ∧
     stopRecording activeState (some failEnv) = Except.ok activeState.chunks.flatten ∧
     stopRecording activeState none = Except.ok activeState.chunks.flatten) :=
  ⟨Or.inl rfl, rfl,
    normalizer_degrade_not_fail [9] failEnv (Or.inl rfl) activeState 0 rfl⟩

/-- C5: capture is terminated by whichever fires first of the video's
natural `ended` event and the deadline timer at `duration + 2` seconds: the
recorder always ends inactive, the stop instant is the earlier of the two
signals, and when `ended` never fires the deadline pauses playback and
force-stops capture at `duration + 2`. -/
theorem convertVideoToAudio_deadline_race (d : ℚ) (endedAt : Option ℚ) :
    (runExtraction d endedAt).recorder = RecorderPhase.inactive ∧
    (runExtraction d endedAt).stoppedAt = some (stopInstant d endedAt) ∧
    (runExtraction d none).videoPaused = true ∧
    stopInstant d none = d + 2 := by
  rcases endedAt with _ | t
  · exact ⟨rfl, rfl, rfl, rfl⟩
  · by_cases ht : t ≤ d + 2
    · have hrun : runExtraction d (some t) =
          { recorder := RecorderPhase.inactive, videoPaused := false,
            stoppedAt := some t } := by
        simp [runExtraction, timeline, ht, stepEvent]
      refine ⟨by rw [hrun], ?_, rfl, rfl⟩
      rw [hrun, stopInstant]
      simp [min_eq_left ht]
    · have hrun : runExtraction d (some t) =
          { recorder := RecorderPhase.inactive, videoPaused := true,
            stoppedAt := some (d + 2) } := by
        simp [runExtraction, timeline, ht, stepEvent]
      refine ⟨by rw [hrun], ?_, rfl, rfl⟩
      rw [hrun, stopInstant]
      simp [min_eq_right (le_of_not_le ht)]

/-- C6: classification as VideoFile succeeds when either the
case-insensitive filename extension matches the video extension list or the
declared MIME type is in the video allowlist (inclusive OR); in particular
`clip.MKV` with declared type `video/x-matroska` is classified VideoFile —
through its extension, since that MIME type is not in the allowlist. -/
theorem isVideoFile_inclusive_or :
    isVideoFile "clip.MKV" "video/x-matroska" = true ∧
    videoTypes.contains "video/x-matroska" = false ∧
    matchesExtension videoExtensions "clip.MKV" = true ∧
    ∀ name declaredType : String,
      isVideoFile name declaredType =
        (videoTypes.contains declaredType ||
          matchesExtension videoExtensions name) :=
  ⟨by decide, by decide, by decide, fun _ _ => rfl⟩

/-- C7 counterexample: the file named `a.opus` with an empty declared type
matches neither the audio half nor the video half of the spec's fixed table,
so by the claim it should be rejected as unsupported — yet the code's
classifier accepts it as an audio file. -/
theorem classifier_table_counterexample :
    isAudioFile "a.opus" "" = true ∧
    matchesExtension specAudioExtensions "a.opus" = false ∧
    matchesExtension specVideoExtensions "a.opus" = false ∧
    specTableAccepts "a.opus" "" = false :=
  ⟨by decide, by decide, by decide, by decide⟩

/-- C7 amended: the classifier accepts exactly the code's fixed tables —
audio extensions mp3, wav, m4a, ogg, flac, aac, wma, opus; video extensions
mp4, avi, mov, mkv, webm, qt, 3gp, wmv, flv, m4v; and the code's two MIME
allowlists — and every file matching neither table is rejected. -/
theorem classifier_table_exact (name declaredType : String) :
    acceptedByClassifier name declaredType =
      (audioTypes.contains declaredType || videoTypes.contains declaredType ||
       matchesExtension (audioExtensions ++ videoExtensions) name) := by
  simp only [acceptedByClassifier, isAudioFile, isVideoFile, matchesExtension,
    List.any_append]
  cases audioTypes.contains declaredType <;>
    cases videoTypes.contains declaredType <;>
      simp [Bool.or_assoc, Bool.or_comm, Bool.or_left_comm]

/-- C8 counterexample: with the session `activeState` already recording
(handle 0), a new `startRecording` call whose device acquisition succeeds
does not fail fast: it resolves and installs a fresh session, replacing the
stored recorder and stream references. -/
theorem startRecording_active_counterexample :
    activeState.mediaRecorder = some 0 ∧
    startRecording activeState (some 1) =
      Except.ok { mediaRecorder := some 1, stream := some 1, chunks := [] } :=
  ⟨rfl, rfl⟩

/-- C8 amended: `startRecording` never inspects the current state: whenever
device acquisition succeeds it resolves and replaces the stored session
(recorder, stream and chunk list) with a fresh one — also while a session is
already active — and it fails only when device acquisition is denied. -/
theorem startRecording_replaces_session (st : AudioServiceState) (dev : ℕ) :
    startRecording st (some dev) =
      Except.ok { mediaRecorder := some dev, stream := some dev, chunks := [] } ∧
    startRecording st none =
      Except.error "Failed to start recording. Please check microphone permissions." :=
  ⟨rfl, rfl⟩

theorem mem_accumulate_ne_nil (events acc : List (List ℕ))
    (hacc : ∀ c ∈ acc, c ≠ []) :
    ∀ c ∈ events.foldl pushChunk acc, c ≠ [] := by
  induction events generalizing acc with
  | nil => simpa using hacc
  | cons e es ih =>
    rw [List.foldl_cons]
    apply ih
    intro c hc
    by_cases hpos : e.length > 0
    · rw [pushChunk, if_pos hpos] at hc
      rcases List.mem_append.mp hc with h1 | h1
      · exact hacc c h1
      · rw [List.mem_singleton] at h1
        subst h1
        intro hnil
        rw [hnil] at hpos
        simp at hpos
    · rw [pushChunk, if_neg hpos] at hc
      exact hacc c hc

/-- C9: the extractor's data-available handler accumulates only non-empty
chunks, and its stop handler fails with an error rather than resolving when
zero chunks were accumulated or the assembled result has zero bytes; any
raw buffer it does resolve is therefore non-empty. -/
theorem convertVideoToAudio_empty_guard (events : List (List ℕ)) (raw : List ℕ)
    (h : onStopResult (accumulateChunks events) = Except.ok raw) :
    raw ≠ [] ∧
    (∀ c ∈ accumulateChunks events, c ≠ []) ∧
    onStopResult [] = Except.error "No audio data was captured from the video" ∧
    onStopResult [[], []] = Except.error "Extracted audio file is empty" := by
  refine ⟨?_, mem_accumulate_ne_nil events [] (by simp), rfl, rfl⟩
  by_cases h0 : (accumulateChunks events).length = 0
  · rw [onStopResult, if_pos h0] at h
    exact absurd h (by simp)
  · by_cases h1 : (accumulateChunks events).flatten.length = 0
    · rw [onStopResult, if_neg h0, if_pos h1] at h
      exact absurd h (by simp)
    · rw [onStopResult, if_neg h0, if_neg h1] at h
      injection h with h2
      subst h2
      intro hnil
      rw [hnil] at h1
      simp at h1

/-- Witness for `convertVideoToAudio_empty_guard`: a single 1-byte chunk. -/
theorem convertVideoToAudio_empty_guard_witness : ([5] : List ℕ) ≠ [] :=
  (convertVideoToAudio_empty_guard [[5]] [5] rfl).1
